import Mathlib

/-!
# Verification of the hiyori HTTP client core

A shallow embedding of the request-lifecycle core of the hiyori
asynchronous HTTP/1.1 client: request bodies (bytes and multipart),
the connection pool, the redirect driver, the response-body reader,
resolver TTL arithmetic and the connection identity type.

Byte strings are modelled as `List Nat`, header maps as insertion-ordered
association lists with string keys (the source stores keys lower-cased in a
case-tolerant dict; all keys used here are already lower-case), and Python
exceptions as `Except` / `Option` values.
-/

namespace Hiyori

/-! ## Common byte / header model -/

abbrev Bytes := List Nat

abbrev Headers := List (String × String)

def kContentLength : String := "content-length"

def kTransferEncoding : String := "transfer-encoding"

def vChunked : String := "chunked"

/-- Header membership test, mirroring `key in headers.keys()`. -/
def hdrContains (hs : Headers) (k : String) : Bool :=
  hs.any (fun p => p.1 = k)

/-- `headers.setdefault(k, v)`: insert only when the key is absent. -/
def hdrSetDefault (hs : Headers) (k v : String) : Headers :=
  if hdrContains hs k then hs else hs ++ [(k, v)]

/-! ## C1: body-length header setup in `HttpConnection.send_request`

Embedding of `connection.py` lines 129–137.  `calc_len` of a request body
either returns a length or raises `NotImplementedError` (the base-class
default); its result is modelled by `CalcLenOutcome`.  In the Python source,
when `calc_len` raises, the `except` arm runs
`headers.setdefault("transfer-encoding", "chunked")` — but the local variable
`body_len` is then still unbound when the following statement
`if body_len > 0:` executes, which raises `UnboundLocalError`.  The error
value carries the header state at the moment of the crash. -/

inductive CalcLenOutcome where
  | val (n : Nat)
  | notImplemented
  deriving DecidableEq, Repr

inductive PyErr where
  | unboundLocal (hs : Headers)
  deriving DecidableEq, Repr

/-- `connection.py:129-137`: decide `content-length` / `transfer-encoding`
before the request is written. -/
def setupBodyHeaders (hs : Headers) (r : CalcLenOutcome) : Except PyErr Headers :=
  if hdrContains hs kContentLength then .ok hs
  else
    match r with
    | .val n =>
        .ok (if n > 0 then hdrSetDefault hs kContentLength (Nat.repr n) else hs)
    | .notImplemented =>
        .error (.unboundLocal (hdrSetDefault hs kTransferEncoding vChunked))

/-! ## C7: `ResolvedResult.expired` (`resolvers/base.py:87-91`)

`time.monotonic()` values are modelled as rationals.  The source compares
`time.monotonic() - self.ttl > self.resolved_at`. -/

structure RResult where
  ttl : Int
  resolvedAt : ℚ
  deriving DecidableEq, Repr

def RResult.expired (r : RResult) (now : ℚ) : Bool :=
  if r.ttl < 0 then false
  else decide (now - (r.ttl : ℚ) > r.resolvedAt)

/-! ## C8: effective TTL in `AsyncResolver.lookup_now` / `HttpsResolver.lookup_now`

Both resolvers fold the minimum over the remote answers' TTLs
(`if ttl is None or ttl > result.ttl: ttl = result.ttl`) and then apply
`if ttl is None or ttl < self._min_ttl: ttl = self._min_ttl`.
The constructor stores `respect_remote_ttl` (`resolvers/base.py:190-201`),
and the parameter is threaded here exactly as in the source: it is never
consulted by either `lookup_now`. -/

def lookupNowTtl (minTtl : Int) (respectRemote : Bool) (remoteTtls : List Int) : Int :=
  let ttlMin : Option Int :=
    remoteTtls.foldl
      (fun acc t =>
        match acc with
        | none => some t
        | some cur => if cur > t then some t else some cur)
      none
  match ttlMin with
  | none => minTtl
  | some t => if t < minTtl then minTtl else t

/-! ## C9: `HttpConnectionId` (`connection.py:30-49`)

Authority strings are modelled as `List Char`.  `authority.split(":", 1)`
splits at the first colon only; `int(...)` is modelled by `pyInt`, returning
`none` where Python's `int` constructor raises `ValueError`. -/

inductive HttpScheme where
  | http
  | https
  deriving DecidableEq, Repr

structure HttpConnectionId where
  authority : List Char
  scheme : HttpScheme
  deriving DecidableEq, Repr

/-- `s.split(":", 1)`: the text before the first `':'` and, when a colon is
present, everything after it. -/
def splitFirstColon : List Char → List Char × Option (List Char)
  | [] => ([], none)
  | c :: rest =>
      if c = ':' then ([], some rest)
      else
        let (a, b) := splitFirstColon rest
        (c :: a, b)

/-- Digit-string parsing: `none` unless the characters are a non-empty run
of decimal digits. -/
def digitsToNat : List Char → Option Nat
  | [] => none
  | cs =>
      if cs.all Char.isDigit then
        some (cs.foldl (fun acc c => acc * 10 + (c.toNat - 48)) 0)
      else none

/-- Python `int(s)` on the decimal strings relevant here: optional sign
followed by a non-empty digit run (leading/trailing blanks stripped);
`none` models `ValueError`. -/
def pyInt (s : List Char) : Option Int :=
  let t := (s.dropWhile (fun c => c = ' ')).reverse.dropWhile (fun c => c = ' ') |>.reverse
  match t with
  | '+' :: rest => (digitsToNat rest).map Int.ofNat
  | '-' :: rest => (digitsToNat rest).map (fun n => -(n : Int))
  | cs => (digitsToNat cs).map Int.ofNat

/-- `HttpConnectionId.hostname`. -/
def HttpConnectionId.hostname (cid : HttpConnectionId) : List Char :=
  (splitFirstColon cid.authority).1

/-- `HttpConnectionId.port`; `none` models the `ValueError` escaping from
`int(...)`. -/
def HttpConnectionId.port (cid : HttpConnectionId) : Option Int :=
  match (splitFirstColon cid.authority).2 with
  | some t => pyInt t
  | none => some (if cid.scheme = .https then 443 else 80)

/-! ## Connection pool model (`http_client.py`)

A connection is reduced to its identity and its closing flag
(`HttpConnection.closing()`); the pool `HttpClient._conns` is an
insertion-ordered map (`collections.OrderedDict`) modelled as an
association list in insertion order. -/

structure MConn where
  cid : Nat
  closing : Bool
  deriving DecidableEq, Repr

/-- `HttpConnection.close()` as far as the pool can observe it. -/
def MConn.close (c : MConn) : MConn := { c with closing := true }

abbrev Pool := List (Nat × MConn)

def poolHas (p : Pool) (i : Nat) : Bool :=
  p.any (fun e => e.1 = i)

/-- `HttpClient._put_conn` (`http_client.py:196-209`).  Returns the new pool
together with the connections that the call closed.  The source consults
only the closing flag, the keep-alive switch and key membership —
`max_idle_connections` is not read here. -/
def putConn (allowKeepAlive : Bool) (p : Pool) (c : MConn) : Pool × List MConn :=
  if c.closing || !allowKeepAlive then (p, [c.close])
  else if !poolHas p c.cid then (p ++ [(c.cid, c)], [])
  else (p, [c.close])

/-! ## Error taxonomy (`exceptions.py`), reduced to the kinds the
claims mention. -/

structure ModelRequest where
  method : String
  url : List Char
  scheme : List Char
  authority : List Char
  hasBody : Bool
  bodySeekable : Bool
  deriving DecidableEq, Repr

inductive HErr where
  | requestTimeout
  | badResponse
  | responseEntityTooLarge
  | connectionClosed
  | failedRedirection
  | tooManyRedirects (lastRequest : ModelRequest)
  | httpError (status : Nat)
  | unresolvableHost
  deriving DecidableEq, Repr

/-! ## C2: `HttpClient.send_request` with `follow_redirection=False`
(`http_client.py:337-378`)

The awaited `conn.send_request(...)` either times out, raises, or returns a
response with a status code; `connClosing` is the connection's closing flag
after the attempt (`HttpConnection.send_request` closes the connection
itself when `read_response_body` is false). The outcome records what the
caller raised or returned, the pool afterwards, and every connection closed
on the way. -/

inductive AttemptOutcome where
  | timeout
  | failure (e : HErr)
  | success (status : Nat) (connClosing : Bool)
  deriving DecidableEq, Repr

deriving instance DecidableEq for Except

structure SendOutcome where
  result : Except HErr Nat
  pool : Pool
  closedConns : List MConn
  deriving DecidableEq, Repr

/-- `http_client.py:350-378`: timeout / exception handling, check-in of the
connection when `read_response_body` is true, then the `raise_error`
status check. -/
def sendRequestCore (readRespBody raiseErr allowKeepAlive : Bool)
    (p : Pool) (c : MConn) (a : AttemptOutcome) : SendOutcome :=
  match a with
  | .timeout => ⟨.error .requestTimeout, p, [c.close]⟩
  | .failure e => ⟨.error e, p, [c.close]⟩
  | .success status connClosing =>
      let cAfter : MConn := ⟨c.cid, connClosing⟩
      let pc := if readRespBody then putConn allowKeepAlive p cAfter else (p, [])
      if raiseErr && decide (status ≥ 400) then ⟨.error (.httpError status), pc.1, pc.2⟩
      else ⟨.ok status, pc.1, pc.2⟩

/-! ## C5: the redirect driver `HttpClient._handle_redirection`
(`http_client.py:241-314`)

The server is a stream of responses indexed by hop number; hop 0 is the
response to the initial request.  URLs and locations are `List Char`; the
regex `^(http:/|https:/)?/` accepts exactly the strings starting with
`/`, `http://` or `https://`.  Each inner hop re-enters `fetch` with
`follow_redirection=False`; the model keeps the scheme/authority of the
previous request for the path-absolute rewrite (the claims only exercise
path-absolute locations). -/

structure ModelResponse where
  status : Nat
  location : Option (List Char)
  deriving DecidableEq, Repr

/-- `pat` is a leading substring of `s` (`s.startswith(pat)`). -/
def beginsWith (s pat : List Char) : Bool :=
  match s, pat with
  | _, [] => true
  | [], _ :: _ => false
  | c :: cs, d :: ds => c = d && beginsWith cs ds

def slashL : List Char := "/".toList

def httpSlashesL : List Char := "http://".toList

def httpsSlashesL : List Char := "https://".toList

def schemeSepL : List Char := "://".toList

def sGet : String := "GET"

/-- `response.status_code not in (301, 302, 303, 307, 308)`, negated. -/
def isRedirectStatus (s : Nat) : Bool :=
  s == 301 || s == 302 || s == 303 || s == 307 || s == 308

/-- `_ABSOLUTE_PATH_RE.match(location) is not None`. -/
def absolutePathRe (s : List Char) : Bool :=
  beginsWith s slashL || beginsWith s httpSlashesL || beginsWith s httpsSlashesL

/-- Iterations `i = 1 .. max_redirects` of the `for` loop, entered with the
response `resp` produced by request `req`; `remaining` counts the redirect
hops the loop may still take, and `idx` is the index of `resp` in the
server stream.  The `for`–`else` clause raises
`TooManyRedirects(response.request)`. -/
def redirectIter (server : Nat → ModelResponse) :
    Nat → ModelRequest → ModelResponse → Nat → Except HErr (ModelRequest × ModelResponse)
  | _, req, resp, 0 =>
      if isRedirectStatus resp.status then .error (.tooManyRedirects req)
      else .ok (req, resp)
  | idx, req, resp, remaining + 1 =>
      if isRedirectStatus resp.status then
        match resp.location with
        | none => .error .badResponse
        | some loc =>
            if !absolutePathRe loc then .error .failedRedirection
            else
              let loc' :=
                if beginsWith loc slashL then
                  req.scheme ++ schemeSepL ++ req.authority ++ loc
                else loc
              if resp.status < 304 then
                let req' : ModelRequest :=
                  { method := sGet, url := loc', scheme := req.scheme,
                    authority := req.authority, hasBody := false,
                    bodySeekable := true }
                redirectIter server (idx + 1) req' (server (idx + 1)) remaining
              else
                if req.hasBody && !req.bodySeekable then .error .failedRedirection
                else
                  let req' : ModelRequest := { req with url := loc' }
                  redirectIter server (idx + 1) req' (server (idx + 1)) remaining
      else .ok (req, resp)

/-- `HttpClient._handle_redirection`: the `i = 0` iteration issues the
initial request, then up to `max_redirects` redirect hops follow. -/
def handleRedirection (server : Nat → ModelResponse) (req : ModelRequest)
    (maxRedirects : Nat) : Except HErr (ModelRequest × ModelResponse) :=
  redirectIter server 0 req (server 0) maxRedirects

/-! ## C6: the response-body read loop in `HttpConnection.send_request`
(`connection.py:160-177`)

The codec reader is modelled by the byte list it has yet to deliver;
`reader.read(n)` hands over up to `n` of the buffered bytes and raises
`ReadFinishedError` once the stream is exhausted.  `readBodyLoop` is the
`while True` loop accumulating into `body_buf`, with an explicit fuel
(first argument) for termination; `none` means the fuel ran out. -/

def readBodyLoop (maxBodySize : Nat) :
    Nat → Bytes → Bytes → Option (Except HErr Bytes)
  | 0, _, _ => none
  | _ + 1, [], buf => some (.ok buf)
  | fuel + 1, remaining@(_ :: _), buf =>
      let want := maxBodySize + 1 - buf.length
      let part := remaining.take want
      let buf' := buf ++ part
      if buf'.length > maxBodySize then some (.error .responseEntityTooLarge)
      else readBodyLoop maxBodySize fuel (remaining.drop want) buf'

/-! ## Request bodies (`bodies.py`, `multipart.py`)

`BytesRequestBody` (also the backing of `UrlEncodedRequestBody`,
`JsonRequestBody` and multipart `_StrField`) is a byte buffer plus a
`BytesIO` cursor.  `_FileField` holds the rendered header block (`_prefix`,
called `pfx` here since its byte content is opaque to the claims), the
underlying file's bytes with the file object's own cursor `filePos`, and
the field cursor `_ptr`.  `read` returns `none` for `EOFError`. -/

structure BytesBody where
  buf : Bytes
  pos : Nat
  deriving DecidableEq, Repr

/-- `BytesRequestBody.read`: `BytesIO.read(n)` hands out up to `n` bytes
from the cursor and advances it; an empty read raises `EOFError`. -/
def BytesBody.read (b : BytesBody) (n : Nat) : Option (Bytes × BytesBody) :=
  let data := (b.buf.drop b.pos).take n
  if data = [] then none
  else some (data, { b with pos := b.pos + data.length })

/-- `BytesRequestBody.seek_front`. -/
def BytesBody.seekFront (b : BytesBody) : BytesBody := { b with pos := 0 }

/-- `BytesRequestBody.calc_len` returns the stored total length. -/
def BytesBody.calcLen (b : BytesBody) : Nat := b.buf.length

/-- `_FileField`: rendered header block, file bytes, file cursor, field
cursor. -/
structure FileField where
  pfx : Bytes
  fileCont : Bytes
  filePos : Nat
  ptr : Nat
  deriving DecidableEq, Repr

/-- `_FileField.read` (`multipart.py:80-92`).  While the field cursor is
inside the header block a slice of it is returned and the cursor advances
by `n` (the source does `self._ptr += n`, not by the slice length); then
bytes come from the file object, whose empty read raises `EOFError`. -/
def FileField.read (f : FileField) (n : Nat) : Option (Bytes × FileField) :=
  if f.ptr < f.pfx.length then
    some ((f.pfx.drop f.ptr).take n, { f with ptr := f.ptr + n })
  else
    let part := (f.fileCont.drop f.filePos).take n
    if part = [] then none
    else some (part, { f with filePos := f.filePos + part.length })

/-- `_FileField.seek_front` (`multipart.py:77-78`): only the field cursor is
reset — the file object's position is left untouched. -/
def FileField.seekFront (f : FileField) : FileField := { f with ptr := 0 }

/-- `_FileField.calc_len` (`multipart.py:71-75`):
`self._fp.seek(0, io.SEEK_END); return len(self._prefix) + self._fp.tell()`
— it moves the file cursor to the end as a side effect. -/
def FileField.calcLen (f : FileField) : Nat × FileField :=
  (f.pfx.length + f.fileCont.length, { f with filePos := f.fileCont.length })

/-- A multipart field is a `_StrField` (a bytes body over the rendered
field) or a `_FileField`. -/
inductive Field where
  | str (b : BytesBody)
  | file (f : FileField)
  deriving DecidableEq, Repr

def Field.read : Field → Nat → Option (Bytes × Field)
  | .str b, n => (b.read n).map (fun r => (r.1, .str r.2))
  | .file f, n => (f.read n).map (fun r => (r.1, .file r.2))

def Field.seekFront : Field → Field
  | .str b => .str b.seekFront
  | .file f => .file f.seekFront

def Field.calcLen : Field → Nat × Field
  | .str b => (b.calcLen, .str b)
  | .file f => ((f.calcLen).1, .file (f.calcLen).2)

/-- `MultipartRequestBody`: the field list, the closing affix
`--<boundary>--\r\n`, the memoised `_body_len` and the cursor `_ptr`
(field index while non-negative, `-1 - affix_pos` afterwards). -/
structure MultipartBody where
  fields : List Field
  affix : Bytes
  bodyLen : Option Nat
  ptr : Int
  deriving DecidableEq, Repr

/-- The `while` loop inside `MultipartRequestBody.read`
(`multipart.py:199-212`) restricted to the field-list suffix starting at
the cursor: the first field that yields data is returned together with the
updated suffix and the number of exhausted fields that were skipped;
`none` when every remaining field raises `EOFError`. -/
def mpWalk : List Field → Nat → Option (Bytes × List Field × Nat)
  | [], _ => none
  | f :: rest, n =>
      match f.read n with
      | some (d, f') => some (d, f' :: rest, 0)
      | none =>
          match mpWalk rest n with
          | some (d, rest', k) => some (d, f :: rest', k + 1)
          | none => none

/-- The affix tail of `MultipartRequestBody.read` (`multipart.py:214-222`). -/
def MultipartBody.readAffix (m : MultipartBody) (n : Nat) : Option (Bytes × MultipartBody) :=
  let affixPos := (-m.ptr - 1).toNat
  if affixPos ≥ m.affix.length then none
  else
    let part := (m.affix.drop affixPos).take n
    some (part, { m with ptr := m.ptr - part.length })

/-- `MultipartRequestBody.read` (`multipart.py:196-222`). -/
def MultipartBody.read (m : MultipartBody) (n : Nat) : Option (Bytes × MultipartBody) :=
  if 0 ≤ m.ptr then
    match mpWalk (m.fields.drop m.ptr.toNat) n with
    | some (d, suffix', k) =>
        some (d, { m with fields := m.fields.take m.ptr.toNat ++ suffix',
                          ptr := m.ptr + k })
    | none => MultipartBody.readAffix { m with ptr := -1 } n
  else m.readAffix n

/-- `MultipartRequestBody.seek_front` (`multipart.py:189-194`): reset the
cursor and `seek_front` every field (`_body_len` is not cleared). -/
def MultipartBody.seekFront (m : MultipartBody) : MultipartBody :=
  { m with ptr := 0, fields := m.fields.map Field.seekFront }

/-- `MultipartRequestBody.calc_len` (`multipart.py:177-187`): on the first
call sum the fields' `calc_len` (with their side effects) plus the affix
length and memoise it. -/
def MultipartBody.calcLen (m : MultipartBody) : Nat × MultipartBody :=
  match m.bodyLen with
  | some l => (l, m)
  | none =>
      let folded := m.fields.foldl
        (fun (acc : Nat × List Field) fld =>
          let r := fld.calcLen
          (acc.1 + r.1, acc.2 ++ [r.2]))
        (0, [])
      let l := folded.1 + m.affix.length
      (l, { m with fields := folded.2, bodyLen := some l })

/-- Fresh multipart body over the given fields and affix, as built by
`MultipartRequestBody.__init__`. -/
def mkMultipart (fields : List Field) (affix : Bytes) : MultipartBody :=
  { fields := fields, affix := affix, bodyLen := none, ptr := 0 }

/-! ### Reading a body to exhaustion

`readAll*` repeatedly calls `read n` until `EOFError`, concatenating the
chunks; the first argument is fuel, `none` meaning it ran out. -/

def BytesBody.readAll : Nat → Nat → BytesBody → Option (Bytes × BytesBody)
  | 0, _, _ => none
  | fuel + 1, n, b =>
      match b.read n with
      | none => some ([], b)
      | some (d, b') => (BytesBody.readAll fuel n b').map (fun r => (d ++ r.1, r.2))

def MultipartBody.readAll : Nat → Nat → MultipartBody → Option (Bytes × MultipartBody)
  | 0, _, _ => none
  | fuel + 1, n, m =>
      match m.read n with
      | none => some ([], m)
      | some (d, m') => (MultipartBody.readAll fuel n m').map (fun r => (d ++ r.1, r.2))

/-! ### Auxiliary constructions used in the statements -/

/-- A fresh multipart body whose fields are all string fields
(`_StrField` is a `BytesRequestBody` over its rendered bytes, cursor 0). -/
def mkStrMultipart (bufs : List Bytes) (affix : Bytes) : MultipartBody :=
  mkMultipart (bufs.map (fun bf => .str ⟨bf, 0⟩)) affix

/-- A path-absolute redirect location. -/
def locR : List Char := "/r".toList

/-- A redirect response with status `s` pointing at `locR`. -/
def redirResp (s : Nat) : ModelResponse := ⟨s, some locR⟩

/-- A terminal non-redirect response. -/
def okResp : ModelResponse := ⟨200, none⟩

/-- A server that answers `m` redirects (statuses `st 0 .. st (m-1)`) and
then the terminal response. -/
def srvCut (st : Nat → Nat) (m : Nat) : Nat → ModelResponse :=
  fun i => if i < m then redirResp (st i) else okResp

/-- A server that never stops redirecting. -/
def srvAll (st : Nat → Nat) : Nat → ModelResponse :=
  fun i => redirResp (st i)

/-! ## Helper lemmas -/

theorem splitFirstColon_no_colon (s : List Char) (h : ':' ∉ s) :
    splitFirstColon s = (s, none) := by
  induction s with
  | nil => rfl
  | cons c cs ih =>
      have hc : ¬(c = ':') := fun hh => h (by simp [hh])
      have hcs : ':' ∉ cs := fun hm => h (List.mem_cons_of_mem c hm)
      simp [splitFirstColon, hc, ih hcs]

theorem splitFirstColon_append (host rest : List Char) (h : ':' ∉ host) :
    splitFirstColon (host ++ ':' :: rest) = (host, some rest) := by
  induction host with
  | nil => simp [splitFirstColon]
  | cons c cs ih =>
      have hc : ¬(c = ':') := fun hh => h (by simp [hh])
      have hcs : ':' ∉ cs := fun hm => h (List.mem_cons_of_mem c hm)
      simp [splitFirstColon, hc, ih hcs]

theorem readBodyLoop_nil (maxB fuel : Nat) (buf : Bytes) :
    readBodyLoop maxB (fuel + 1) [] buf = some (.ok buf) := rfl

theorem readBodyLoop_cons (maxB fuel : Nat) (a : Nat) (rest buf : Bytes) :
    readBodyLoop maxB (fuel + 1) (a :: rest) buf =
      (if (buf ++ (a :: rest).take (maxB + 1 - buf.length)).length > maxB then
        some (.error .responseEntityTooLarge)
      else
        readBodyLoop maxB fuel ((a :: rest).drop (maxB + 1 - buf.length))
          (buf ++ (a :: rest).take (maxB + 1 - buf.length))) := rfl

/-- One redirect hop on a response whose location is the path-absolute
`locR`, for a request whose body supports `seek_front`. -/
theorem redirectIter_step_locR (server : Nat → ModelResponse) (idx k : Nat)
    (req : ModelRequest) (s : Nat) (hs : isRedirectStatus s = true)
    (hb : req.bodySeekable = true) :
    redirectIter server idx req ⟨s, some locR⟩ (k + 1)
      = (if s < 304 then
          redirectIter server (idx + 1)
            ⟨sGet, req.scheme ++ schemeSepL ++ req.authority ++ locR,
              req.scheme, req.authority, false, true⟩
            (server (idx + 1)) k
        else
          redirectIter server (idx + 1)
            { req with url := req.scheme ++ schemeSepL ++ req.authority ++ locR }
            (server (idx + 1)) k) := by
  have h1 : absolutePathRe locR = true := by decide
  have h2 : beginsWith locR slashL = true := by decide
  simp [redirectIter, hs, h1, h2, hb]

/-- Against `srvCut st m`, the loop entered at hop `idx` with `k` redirect
hops left succeeds with the terminal response whenever `idx + k = m`. -/
theorem redirectIter_srvCut (st : Nat → Nat) (m : Nat)
    (hst : ∀ i, isRedirectStatus (st i) = true) :
    ∀ (k idx : Nat) (req : ModelRequest), req.bodySeekable = true → idx + k = m →
      ∃ q, redirectIter (srvCut st m) idx req (srvCut st m idx) k = .ok (q, okResp) := by
  intro k
  induction k with
  | zero =>
      intro idx req hb hm
      have hi : srvCut st m idx = okResp := by
        simp [srvCut]
        omega
      rw [hi]
      exact ⟨req, by simp [redirectIter, isRedirectStatus, okResp]⟩
  | succ k ih =>
      intro idx req hb hm
      have hidx : idx < m := by omega
      have hi : srvCut st m idx = redirResp (st idx) := by simp [srvCut, hidx]
      rw [hi, redirResp,
        redirectIter_step_locR (srvCut st m) idx k req (st idx) (hst idx) hb]
      by_cases h304 : st idx < 304
      · rw [if_pos h304]
        exact ih (idx + 1) _ rfl (by omega)
      · rw [if_neg h304]
        exact ih (idx + 1) _ hb (by omega)

/-- Against `srvAll st`, the loop always exhausts its hop budget and raises
`TooManyRedirects`. -/
theorem redirectIter_srvAll (st : Nat → Nat)
    (hst : ∀ i, isRedirectStatus (st i) = true) :
    ∀ (k idx : Nat) (req : ModelRequest), req.bodySeekable = true →
      ∃ q, redirectIter (srvAll st) idx req (srvAll st idx) k
        = .error (.tooManyRedirects q) := by
  intro k
  induction k with
  | zero =>
      intro idx req hb
      exact ⟨req, by simp [srvAll, redirResp, redirectIter, hst idx]⟩
  | succ k ih =>
      intro idx req hb
      have hi : srvAll st idx = redirResp (st idx) := rfl
      rw [hi, redirResp,
        redirectIter_step_locR (srvAll st) idx k req (st idx) (hst idx) hb]
      by_cases h304 : st idx < 304
      · rw [if_pos h304]
        exact ih (idx + 1) _ rfl
      · rw [if_neg h304]
        exact ih (idx + 1) _ hb

/-! ## Claim theorems -/

/-- Claim C1 — in `HttpConnection.send_request`, with `content-length`
absent: a positive `calc_len` sets `content-length`, a zero `calc_len` sets
neither header; but when `calc_len` raises `NotImplementedError`, the code
sets `transfer-encoding: chunked` and then crashes with `UnboundLocalError`
on `if body_len > 0:` (`body_len` was never assigned), so the request does
NOT proceed normally — the claim's middle branch describes the evident
intent, the code is a slip. -/
theorem c1_calc_len_unbound_local :
    setupBodyHeaders [] .notImplemented
        = .error (.unboundLocal [(kTransferEncoding, vChunked)]) ∧
    setupBodyHeaders [] (.val 5) = .ok [(kContentLength, Nat.repr 5)] ∧
    setupBodyHeaders [] (.val 0) = .ok [] := by
  decide

/-- Claim C2, counterexample — with `read_response_body=True`,
`raise_error=True` and keep-alive on, a 404 response makes `send_request`
raise `HttpError` AFTER `_put_conn` has returned the (open, non-closing)
connection to the pool: the raised-implies-closed-and-discarded claim fails
for the `HttpError` kind. -/
theorem c2_counterexample_http_error_pools_connection :
    sendRequestCore true true true [] ⟨0, false⟩ (.success 404 false)
      = ⟨.error (.httpError 404), [(0, ⟨0, false⟩)], []⟩ := by
  decide

/-- Claim C2, amended — when the awaited `conn.send_request` itself fails
(timeout or any raised exception), `HttpClient.send_request` closes the
connection and does not return it to the pool before propagating; the
`HttpError` raised for `status_code ≥ 400` is excluded, since it is raised
only after the connection has been checked back in. -/
theorem c2_amended_attempt_failure_closes_connection
    (readRB raiseErr aka : Bool) (p : Pool) (c : MConn)
    (a : AttemptOutcome) (h : a = .timeout ∨ ∃ e, a = .failure e) :
    (∃ e, (sendRequestCore readRB raiseErr aka p c a).result = .error e) ∧
    (sendRequestCore readRB raiseErr aka p c a).pool = p ∧
    (sendRequestCore readRB raiseErr aka p c a).closedConns = [c.close] := by
  rcases h with rfl | ⟨e, rfl⟩
  · exact ⟨⟨.requestTimeout, rfl⟩, rfl, rfl⟩
  · exact ⟨⟨e, rfl⟩, rfl, rfl⟩

/-- Witness for the amended C2 theorem at a timeout outcome. -/
theorem c2_amended_witness :
    (∃ e, (sendRequestCore true true true [] ⟨3, false⟩ .timeout).result = .error e) ∧
    (sendRequestCore true true true [] ⟨3, false⟩ .timeout).pool = [] ∧
    (sendRequestCore true true true [] ⟨3, false⟩ .timeout).closedConns
      = [MConn.close ⟨3, false⟩] :=
  c2_amended_attempt_failure_closes_connection true true true [] ⟨3, false⟩
    .timeout (Or.inl rfl)

/-- Claim C3, counterexample — with `max_idle_connections = 1` and a pool
already holding one idle connection, checking in a second connection with a
fresh id simply appends it: the pool now holds 2 > 1 entries and no
connection was evicted or closed (`_put_conn` never consults
`max_idle_connections`). -/
theorem c3_counterexample_pool_exceeds_bound :
    putConn true [(0, ⟨0, false⟩)] ⟨1, false⟩
      = ([(0, ⟨0, false⟩), (1, ⟨1, false⟩)], []) ∧
    ([(0, (⟨0, false⟩ : MConn)), (1, ⟨1, false⟩)] : Pool).length > 1 := by
  decide

/-- Claim C3, amended — `_put_conn` of a non-closing connection with
keep-alive enabled and an id not yet pooled always appends it, whatever the
pool's size: no eviction bound is enforced and nothing is closed. -/
theorem c3_amended_put_conn_always_inserts (p : Pool) (c : MConn)
    (h1 : c.closing = false) (h2 : poolHas p c.cid = false) :
    putConn true p c = (p ++ [(c.cid, c)], []) := by
  simp [putConn, h1, h2]

/-- Witness for the amended C3 theorem. -/
theorem c3_amended_witness :
    putConn true [] ⟨7, false⟩ = ([(7, ⟨7, false⟩)], []) :=
  c3_amended_put_conn_always_inserts [] ⟨7, false⟩ rfl rfl

/-- Claim C4, counterexample — a multipart body with one file field
(header block `[1]`, file content `[2]`, affix `[3]`) first reads to
exhaustion as `[1, 2, 3]`; after `seek_front` it reads as `[1, 3]`: the
file's bytes are missing because `_FileField.seek_front` resets only the
field cursor, not the file object's position. -/
theorem c4_counterexample_file_multipart_rewind :
    (do
      let r1 ← MultipartBody.readAll 10 5 (mkMultipart [.file ⟨[1], [2], 0, 0⟩] [3])
      let r2 ← MultipartBody.readAll 10 5 r1.2.seekFront
      pure (r1.1, r2.1) : Option (Bytes × Bytes)) = some ([1, 2, 3], [1, 3]) ∧
    ([1, 3] : Bytes) ≠ [1, 2, 3] := by
  decide

/-- Claim C4, amended — for bytes-backed bodies (bytes, URL-encoded, JSON,
empty — the latter behaving as a bytes body over `[]`) and for multipart
bodies all of whose fields are string fields, `seek_front` restores the
initial state exactly, so reading to exhaustion after a rewind yields the
same byte sequence as reading from the initial state; multipart bodies with
a file field are excluded (see the counterexample). -/
theorem c4_amended_rewind_restores_initial :
    (∀ (b : BytesBody) (fuel n : Nat),
        BytesBody.readAll fuel n b.seekFront = BytesBody.readAll fuel n ⟨b.buf, 0⟩) ∧
    (∀ (m : MultipartBody) (bufs : List Bytes),
        m.fields.map Field.seekFront = bufs.map (fun bf => Field.str ⟨bf, 0⟩) →
        m.bodyLen = none →
        ∀ fuel n, MultipartBody.readAll fuel n m.seekFront
          = MultipartBody.readAll fuel n (mkStrMultipart bufs m.affix)) := by
  constructor
  · intro b fuel n
    rfl
  · intro m bufs hf hl fuel n
    have hst : m.seekFront = mkStrMultipart bufs m.affix := by
      simp [MultipartBody.seekFront, mkStrMultipart, mkMultipart, hf, hl]
    rw [hst]

/-- Witness for the amended C4 theorem: a bytes body mid-read and a
one-string-field multipart body in a fully-read state. -/
theorem c4_amended_witness :
    BytesBody.readAll 3 1 (BytesBody.seekFront ⟨[7], 1⟩)
      = BytesBody.readAll 3 1 ⟨[7], 0⟩ ∧
    MultipartBody.readAll 5 9 (MultipartBody.seekFront ⟨[.str ⟨[4], 1⟩], [6], none, -2⟩)
      = MultipartBody.readAll 5 9 (mkStrMultipart [[4]] [6]) :=
  ⟨c4_amended_rewind_restores_initial.1 ⟨[7], 1⟩ 3 1,
    c4_amended_rewind_restores_initial.2 ⟨[.str ⟨[4], 1⟩], [6], none, -2⟩ [[4]]
      (by decide) rfl 5 9⟩

/-- Claim C5 — with `follow_redirection=True` and any redirect statuses in
{301, 302, 303, 307, 308} (locations path-absolute, body rewindable): a
server answering exactly `max_redirects` redirects followed by a
non-redirect response makes the driver return that final response, while a
server answering `max_redirects + 1` redirects makes it raise
`TooManyRedirects` carrying the last request. -/
theorem c5_redirect_limit_boundary (st : Nat → Nat) (m : Nat)
    (hst : ∀ i, isRedirectStatus (st i) = true)
    (req : ModelRequest) (hb : req.bodySeekable = true) :
    (∃ q, handleRedirection (srvCut st m) req m = .ok (q, okResp)) ∧
    (∃ q, handleRedirection (srvAll st) req m = .error (.tooManyRedirects q)) := by
  constructor
  · rw [handleRedirection]
    exact redirectIter_srvCut st m hst m 0 req hb (by omega)
  · rw [handleRedirection]
    exact redirectIter_srvAll st hst m 0 req hb

/-- Witness for C5: one 302 redirect with `max_redirects = 1`. -/
theorem c5_redirect_limit_boundary_witness :
    (∃ q, handleRedirection (srvCut (fun _ => 302) 1) ⟨sGet, [], [], [], false, true⟩ 1
        = .ok (q, okResp)) ∧
    (∃ q, handleRedirection (srvAll (fun _ => 302)) ⟨sGet, [], [], [], false, true⟩ 1
        = .error (.tooManyRedirects q)) :=
  c5_redirect_limit_boundary (fun _ => 302) 1 (fun _ => rfl)
    ⟨sGet, [], [], [], false, true⟩ rfl

/-- Claim C6 — the response-body loop buffers and returns a body of exactly
`max_body_size` bytes in full, and fails with `ResponseEntityTooLarge`
(after aborting the reader) on any body of `max_body_size + 1` bytes or
more. -/
theorem c6_max_body_size_boundary (maxB : Nat) (body : Bytes) :
    (body.length = maxB → readBodyLoop maxB 2 body [] = some (.ok body)) ∧
    (body.length > maxB → readBodyLoop maxB 2 body []
        = some (.error .responseEntityTooLarge)) := by
  constructor
  · intro h
    cases body with
    | nil => exact readBodyLoop_nil maxB 1 []
    | cons a as =>
        rw [readBodyLoop_cons]
        simp only [List.length_nil, Nat.sub_zero, List.nil_append]
        rw [List.take_of_length_le (by omega), List.drop_eq_nil_of_le (by omega)]
        rw [if_neg (by omega)]
        exact readBodyLoop_nil maxB 0 (a :: as)
  · intro h
    cases body with
    | nil => exact absurd h (by simp)
    | cons a as =>
        rw [readBodyLoop_cons]
        simp only [List.length_nil, Nat.sub_zero, List.nil_append]
        rw [if_pos]
        rw [List.length_take]
        simp at h ⊢
        omega

/-- Witness for C6 at `max_body_size = 2` (exact fit) and `max_body_size = 1`
(one byte over). -/
theorem c6_max_body_size_boundary_witness :
    readBodyLoop 2 2 [9, 9] [] = some (.ok [9, 9]) ∧
    readBodyLoop 1 2 [9, 9] [] = some (.error .responseEntityTooLarge) :=
  ⟨(c6_max_body_size_boundary 2 [9, 9]).1 rfl,
    (c6_max_body_size_boundary 1 [9, 9]).2 (by decide)⟩

/-- Claim C7, counterexample — at the boundary instant
`now = resolved_at + ttl` (here `ttl = 5`, `resolved_at = 0`, `now = 5`)
the source's strict comparison `now - ttl > resolved_at` makes `expired()`
return false although `now ≥ resolved_at + ttl` holds, refuting the claimed
`≥` biconditional. -/
theorem c7_counterexample_boundary_instant :
    RResult.expired ⟨5, 0⟩ 5 = false ∧ (5 : ℚ) ≥ 0 + (5 : Int) := by
  constructor
  · norm_num [RResult.expired]
  · norm_num

/-- Claim C7, amended — for `ttl ≥ 0`, `expired()` is true iff the current
monotonic time is strictly greater than `resolved_at + ttl`; for any
negative ttl (including the sticky `-1`) it is false. -/
theorem c7_amended_expired_iff_strict (r : RResult) (now : ℚ) :
    (0 ≤ r.ttl → (RResult.expired r now = true ↔ now > r.resolvedAt + r.ttl)) ∧
    (r.ttl < 0 → RResult.expired r now = false) := by
  constructor
  · intro h
    rw [RResult.expired, if_neg (not_lt.mpr h), decide_eq_true_eq]
    constructor
    · intro hg
      linarith
    · intro hg
      linarith
  · intro h
    simp [RResult.expired, h]

/-- Witness for the amended C7 theorem. -/
theorem c7_amended_witness :
    (RResult.expired ⟨5, 0⟩ 6 = true ↔ (6 : ℚ) > 0 + (5 : Int)) ∧
    RResult.expired ⟨-1, 2⟩ 100 = false :=
  ⟨(c7_amended_expired_iff_strict ⟨5, 0⟩ 6).1 (by decide),
    (c7_amended_expired_iff_strict ⟨-1, 2⟩ 100).2 (by decide)⟩

/-- Claim C8 — the claim (and the constructor's docstring) say
`respect_remote_ttl = False` forces the effective TTL down to `min_ttl`;
but neither `lookup_now` ever reads the flag: with `min_ttl = 60`,
`respect_remote_ttl = False` and a remote answer of TTL 1000, the effective
TTL is 1000, not 60 — the code contradicts its own documentation.  (The
lower-bound half of the claim does hold: an empty or low answer set yields
`min_ttl`.) -/
theorem c8_respect_remote_ttl_ignored :
    lookupNowTtl 60 false [1000] = 1000 ∧
    lookupNowTtl 60 false [1000] ≠ 60 ∧
    lookupNowTtl 60 false [] = 60 ∧
    lookupNowTtl 60 false [30] = 60 := by
  decide

/-- Claim C9, counterexample — for the authority `"localhost:"` the text
after the first colon is empty, so Python's `int("")` raises `ValueError`:
the port computation is not defined for every authority string. -/
theorem c9_counterexample_port_value_error :
    HttpConnectionId.port ⟨("localhost:").toList, .http⟩ = none := by
  decide

/-- Claim C9, amended — `hostname` is the authority up to the first colon;
when the authority contains a colon, `port` is `int(...)` of the remaining
text (yielding the written integer when it is one, e.g. `":80"` ↦ 80, and
raising `ValueError` otherwise), and without a colon it is the scheme
default 443/80; the computation is total only on colon-free authorities and
valid integer suffixes. -/
theorem c9_amended_hostname_port (scheme : HttpScheme) (host rest : List Char)
    (h : ':' ∉ host) :
    HttpConnectionId.hostname ⟨host ++ ':' :: rest, scheme⟩ = host ∧
    HttpConnectionId.port ⟨host ++ ':' :: rest, scheme⟩ = pyInt rest ∧
    HttpConnectionId.hostname ⟨host, scheme⟩ = host ∧
    HttpConnectionId.port ⟨host, scheme⟩
      = some (if scheme = .https then 443 else 80) ∧
    HttpConnectionId.port ⟨host ++ (":80").toList, scheme⟩ = some 80 := by
  have h80 : (":80").toList = ':' :: ['8', '0'] := by decide
  refine ⟨?_, ?_, ?_, ?_, ?_⟩
  · simp [HttpConnectionId.hostname, splitFirstColon_append host rest h]
  · simp [HttpConnectionId.port, splitFirstColon_append host rest h]
  · simp [HttpConnectionId.hostname, splitFirstColon_no_colon host h]
  · simp [HttpConnectionId.port, splitFirstColon_no_colon host h]
  · simp [HttpConnectionId.port, h80, splitFirstColon_append host _ h]
    decide

/-- Witness for the amended C9 theorem with host `"h"` and port text
`"8080"`. -/
theorem c9_amended_witness :
    HttpConnectionId.hostname ⟨['h'] ++ ':' :: ("8080").toList, .http⟩ = ['h'] ∧
    HttpConnectionId.port ⟨['h'] ++ ':' :: ("8080").toList, .http⟩
      = pyInt (("8080").toList) ∧
    HttpConnectionId.hostname ⟨['h'], .http⟩ = ['h'] ∧
    HttpConnectionId.port ⟨['h'], .http⟩
      = some (if HttpScheme.http = .https then 443 else 80) ∧
    HttpConnectionId.port ⟨['h'] ++ (":80").toList, .http⟩ = some 80 :=
  c9_amended_hostname_port .http ['h'] (("8080").toList) (by decide)

/-- Claim C10 — `_FileField.calc_len` seeks the underlying file object to
its end, and neither that call nor a subsequent `seek_front` restores the
position; consequently a multipart body with one (arbitrary-content) file
field, read after `calc_len`, emits the field's header block and the
closing affix but none of the file's content bytes. -/
theorem c10_calc_len_moves_file_cursor :
    (∀ f : FileField,
        ((FileField.calcLen f).2).filePos = f.fileCont.length ∧
        ((FileField.calcLen f).2.seekFront).filePos = f.fileCont.length ∧
        (FileField.calcLen f).1 = f.pfx.length + f.fileCont.length) ∧
    (∀ (p c a : Bytes) (n : Nat), p ≠ [] → p.length ≤ n → a.length ≤ n →
        ∃ mEnd, MultipartBody.readAll 3 n ((mkMultipart [.file ⟨p, c, 0, 0⟩] a).calcLen).2
          = some (p ++ a, mEnd)) := by
  constructor
  · intro f
    exact ⟨rfl, rfl, rfl⟩
  · intro p c a n hp hpn han
    have hp0 : 0 < p.length := List.length_pos.mpr hp
    by_cases ha : a = []
    · subst ha
      have hcalc : ((mkMultipart [.file ⟨p, c, 0, 0⟩] ([] : Bytes)).calcLen).2
          = ⟨[.file ⟨p, c, c.length, 0⟩], [], some (p.length + c.length), 0⟩ := by
        simp [mkMultipart, MultipartBody.calcLen, Field.calcLen, FileField.calcLen]
      have e1 : (⟨[.file ⟨p, c, c.length, 0⟩], ([] : Bytes),
            some (p.length + c.length), 0⟩ : MultipartBody).read n
          = some (p, ⟨[.file ⟨p, c, c.length, n⟩], [],
              some (p.length + c.length), 0⟩) := by
        simp [MultipartBody.read, mpWalk, Field.read, FileField.read, hp0,
          List.take_of_length_le hpn]
      have e2 : (⟨[.file ⟨p, c, c.length, n⟩], ([] : Bytes),
            some (p.length + c.length), 0⟩ : MultipartBody).read n = none := by
        simp [MultipartBody.read, mpWalk, Field.read, FileField.read,
          Nat.not_lt.mpr hpn, List.drop_length, MultipartBody.readAffix]
      refine ⟨⟨[.file ⟨p, c, c.length, n⟩], ([] : Bytes),
          some (p.length + c.length), 0⟩, ?_⟩
      rw [hcalc]
      simp [MultipartBody.readAll, e1, e2]
    · have hcalc : ((mkMultipart [.file ⟨p, c, 0, 0⟩] a).calcLen).2
          = ⟨[.file ⟨p, c, c.length, 0⟩], a,
              some (p.length + c.length + a.length), 0⟩ := by
        simp [mkMultipart, MultipartBody.calcLen, Field.calcLen, FileField.calcLen]
      have e1 : (⟨[.file ⟨p, c, c.length, 0⟩], a,
            some (p.length + c.length + a.length), 0⟩ : MultipartBody).read n
          = some (p, ⟨[.file ⟨p, c, c.length, n⟩], a,
              some (p.length + c.length + a.length), 0⟩) := by
        simp [MultipartBody.read, mpWalk, Field.read, FileField.read, hp0,
          List.take_of_length_le hpn]
      have e2 : (⟨[.file ⟨p, c, c.length, n⟩], a,
            some (p.length + c.length + a.length), 0⟩ : MultipartBody).read n
          = some (a, ⟨[.file ⟨p, c, c.length, n⟩], a,
              some (p.length + c.length + a.length), -1 - (a.length : Int)⟩) := by
        simp [MultipartBody.read, mpWalk, Field.read, FileField.read,
          Nat.not_lt.mpr hpn, List.drop_length, MultipartBody.readAffix,
          List.take_of_length_le han, ha]
      have e3 : (⟨[.file ⟨p, c, c.length, n⟩], a,
            some (p.length + c.length + a.length), -1 - (a.length : Int)⟩ :
            MultipartBody).read n = none := by
        have hneg : ¬((0 : Int) ≤ -1 - (a.length : Int)) := by omega
        have htn : ((-(-1 - (a.length : Int)) - 1)).toNat = a.length := by omega
        simp [MultipartBody.read, MultipartBody.readAffix, hneg, htn]
      refine ⟨⟨[.file ⟨p, c, c.length, n⟩], a,
          some (p.length + c.length + a.length), -1 - (a.length : Int)⟩, ?_⟩
      rw [hcalc]
      simp [MultipartBody.readAll, e1, e2, e3]

/-- Witness for C10: a file field with content `[2, 3]` for the cursor
part, and a multipart body (header block `[9]`, file content `[5, 5]`,
affix `[7]`, chunk size 2) for the read-after-`calc_len` part. -/
theorem c10_calc_len_moves_file_cursor_witness :
    ((FileField.calcLen ⟨[1], [2, 3], 0, 0⟩).2).filePos = 2 ∧
    (∃ mEnd, MultipartBody.readAll 3 2
        ((mkMultipart [.file ⟨[9], [5, 5], 0, 0⟩] [7]).calcLen).2
      = some ([9] ++ [7], mEnd)) :=
  ⟨(c10_calc_len_moves_file_cursor.1 ⟨[1], [2, 3], 0, 0⟩).1,
    c10_calc_len_moves_file_cursor.2 [9] [5, 5] [7] 2
      (by decide) (by decide) (by decide)⟩

end Hiyori
